import Mathlib

/-!
Verification development for the Elena DJ playlist generator (Flask backend,
`ElenaDJ` class).  The Python methods are embedded shallowly: dictionaries
become association lists in insertion order, network calls become fields of an
explicit environment record returning `Except String _` (an `Except.error`
models a raised exception), and every embedded operation additionally returns
the list of network calls it issued, so that claims about which calls happen
can be stated and proved.
-/

namespace ElenaDJ

/-! ## Python string primitives (over `List Char`) -/

/-- Python whitespace for `str.strip()` (the input is ASCII-filtered before any
strip in this code base, so the ASCII whitespace set suffices). -/
def pyWS (c : Char) : Bool :=
  c = ' ' || c = '\t' || c = '\n' || c = '\r' || c = Char.ofNat 11 || c = Char.ofNat 12

/-- `credential.encode('ascii', errors='ignore').decode('ascii')`: drop every
non-ASCII character. -/
def asciiFilter (l : List Char) : List Char :=
  l.filter (fun c => decide (c.toNat < 128))

/-- Right-hand side of `str.strip()`: drop trailing whitespace. -/
def rstripWS : List Char → List Char
  | [] => []
  | c :: rest =>
    let r := rstripWS rest
    if r.isEmpty && pyWS c then [] else c :: r

/-- `str.strip()`. -/
def pyStrip (l : List Char) : List Char :=
  rstripWS (l.dropWhile pyWS)

/-- Worker for `removeSub`: `skip` counts characters of a matched occurrence
that remain to be dropped. -/
def removeSubAux (pat : List Char) : List Char → Nat → List Char
  | [], _ => []
  | _ :: rest, Nat.succ k => removeSubAux pat rest k
  | c :: rest, 0 =>
    if !pat.isEmpty && pat.isPrefixOf (c :: rest) then
      removeSubAux pat rest (pat.length - 1)
    else
      c :: removeSubAux pat rest 0

/-- `s.replace(pat, '')` for a non-empty `pat`: remove all non-overlapping
occurrences, scanning left to right. -/
def removeSub (pat : List Char) (l : List Char) : List Char :=
  removeSubAux pat l 0

/-- Index of the first occurrence of `pat` as a contiguous substring
(`str.find` / the split point of `str.split(pat, 1)`). -/
def findSub (pat : List Char) : List Char → Option Nat
  | [] => if pat.isEmpty then some 0 else none
  | c :: rest =>
    if pat.isPrefixOf (c :: rest) then some 0
    else (findSub pat rest).map (fun i => i + 1)

/-- `pat` occurs in `l` starting at index `i`. -/
def occursAt (pat l : List Char) (i : Nat) : Bool :=
  pat.isPrefixOf (l.drop i)

/-! ## `ElenaDJ.clean_credential` (backend.py lines 43-62) -/

/-- The `unwanted_chars` table of `clean_credential`: mojibake sequences and
zero-width/BOM code points, all non-ASCII (`​`, `‌`, `‍`,
`﻿`). -/
def unwantedSubs : List (List Char) :=
  [ String.data ("‚Ä¶"), String.data ("‚Äã"),
    [Char.ofNat 8203], [Char.ofNat 8204], [Char.ofNat 8205], [Char.ofNat 65279] ]

/-- `re \w` over the (already ASCII-only) credential plus the literal `-`
allowed by the pattern `[^\w\-]$`. -/
def isWordChar (c : Char) : Bool :=
  c.isAlpha || c.isDigit || c = '_'

/-- `re.sub(r'[^\w\-]$', '', credential)`: remove the final character when it
is neither a word character nor a dash. -/
def dropTrailingArtifact (l : List Char) : List Char :=
  match l.getLast? with
  | some c => if isWordChar c || c = '-' then l else l.dropLast
  | none => l

/-- `ElenaDJ.clean_credential`, backend.py lines 43-62. -/
def clean_credential (s : String) : String :=
  if s.isEmpty then ""
  else
    let l0 := asciiFilter s.data
    let l1 := unwantedSubs.foldl (fun acc pat => removeSub pat acc) l0
    let l2 := pyStrip l1
    let l3 := l2.filter (fun c => c != '\n')
    let l4 := l3.filter (fun c => c != '\r')
    ⟨dropTrailingArtifact l4⟩

/-! ## Data model -/

/-- A cached `spotipy.Spotify` client handle, identified by the access token it
was constructed from (`spotipy.Spotify(auth=access_token)`; the token is
`none` when the exchanged token object carried no `access_token` key). -/
structure SpClient where
  token : Option String
deriving DecidableEq

/-- `current_user()` result: `{'id': ..., 'display_name': ...}`. -/
structure UserInfo where
  id : String
  displayName : Option String
deriving DecidableEq

/-- A cached OAuth token blob as returned by `get_cached_token`:
`access_token`, `refresh_token`, and the result of `is_token_expired`. -/
structure TokenInfo where
  accessToken : String
  refreshToken : String
  expired : Bool
deriving DecidableEq

/-- `get_access_token(code)` result: spotipy may return a dict (whose
`access_token` entry is read) or a bare token string (`isinstance` check in
`authenticate_with_code`). -/
inductive TokenResult
  | tokDict (accessToken : Option String)
  | tokStr (tok : String)
deriving DecidableEq

/-- An artist entry of a search-result track. -/
structure TrackArtist where
  id : String
  name : String
deriving DecidableEq

/-- A search-result track record: `uri`, `popularity` (read with
`.get('popularity', 0)`), `artists`, `name`. -/
structure Track where
  uri : String
  popularity : Option Nat
  artists : List TrackArtist
  name : String
deriving DecidableEq

/-- A created playlist object: `id`, `external_urls.spotify`, `name`. -/
structure PlaylistObj where
  id : String
  url : String
  name : String
deriving DecidableEq

/-- The mutable state of the `ElenaDJ` instance: the `user_id -> client` pool
`spotify_clients` and the set of session ids with a created
`SpotifyOAuth` object (`spotify_auths`), both in insertion order. -/
structure DJState where
  spotifyClients : List (String × SpClient)
  spotifyAuths : List String
deriving DecidableEq

/-- One network call issued against the providers. -/
inductive NetEvent
  | probe (tok : Option String)
  | refresh (refreshTok : String)
  | exchange (code : String)
  | search (query market : String)
  | artistLookup (artistId : String)
  | createPlaylist (userId nm desc : String)
  | addItems (playlistId : String) (uris : List String)
  | tracksLookup (uris : List String)
deriving DecidableEq

/-- The external collaborators (Spotify Web API, OAuth provider, token cache).
Each field models one fallible call; `Except.error e` models a raised
exception with text `e`. Clients are keyed by their access token. -/
structure Env where
  currentUser : Option String → Except String UserInfo
  search : Option String → String → String → Except String (List Track)
  artist : Option String → String → Except String (Option Nat)
  getCachedToken : String → Except String (Option TokenInfo)
  refreshAccessToken : String → Except String (Option TokenInfo)
  getAccessToken : String → String → Except String (Option TokenResult)
  createPlaylist : Option String → String → String → String → Except String PlaylistObj
  addItems : Option String → String → List String → Except String Unit
  tracks : Option String → List String → Except String (List Track)

/-! ## URL and query-string parsing (`urllib.parse`) -/

/-- Characters strictly before the first occurrence of `stop`. -/
def takeUntilChar (stop : Char) : List Char → List Char
  | [] => []
  | c :: rest => if c = stop then [] else c :: takeUntilChar stop rest

/-- Characters strictly after the first occurrence of `mark`; `[]` when `mark`
is absent. -/
def afterChar (mark : Char) : List Char → List Char
  | [] => []
  | c :: rest => if c = mark then rest else afterChar mark rest

/-- `urllib.parse.urlparse(url).query`: the part after the first `?` of the
pre-fragment portion (the fragment starts at the first `#`). -/
def urlQuery (url : List Char) : List Char :=
  afterChar '?' (takeUntilChar '#' url)

/-- Split on every occurrence of `sep`, keeping empty fields. -/
def splitOnChar (sep : Char) : List Char → List (List Char)
  | [] => [[]]
  | c :: rest =>
    let r := splitOnChar sep rest
    if c = sep then [] :: r
    else
      match r with
      | [] => [[c]]
      | g :: gs => (c :: g) :: gs

/-- Split at the first occurrence of `sep` (`str.split(sep, 1)` with a
single-character separator); `none` when `sep` is absent. -/
def splitOnceChar (sep : Char) : List Char → Option (List Char × List Char)
  | [] => none
  | c :: rest =>
    if c = sep then some ([], rest)
    else (splitOnceChar sep rest).map (fun p => (c :: p.1, p.2))

/-- Hexadecimal digit value. -/
def hexVal (c : Char) : Option Nat :=
  if '0' ≤ c && c ≤ '9' then some (c.toNat - 48)
  else if 'a' ≤ c && c ≤ 'f' then some (c.toNat - 87)
  else if 'A' ≤ c && c ≤ 'F' then some (c.toNat - 55)
  else none

/-- `urllib.parse.unquote_plus`: `+` becomes a space and `%hh` becomes the
character with that code (invalid escapes are kept literally; multi-byte UTF-8
percent sequences are approximated bytewise, which coincides with Python on
the ASCII range exercised here). -/
def unquotePlus : List Char → List Char
  | [] => []
  | '+' :: rest => ' ' :: unquotePlus rest
  | '%' :: a :: b :: rest =>
    match hexVal a, hexVal b with
    | some ha, some hb => Char.ofNat (16 * ha + hb) :: unquotePlus rest
    | _, _ => '%' :: unquotePlus (a :: b :: rest)
  | c :: rest => c :: unquotePlus rest

/-- `urllib.parse.parse_qsl` with default options: split fields on `&`, skip
empty fields, skip fields without `=`, skip fields with an empty value, and
unquote names and values. -/
def parseQsl (qs : List Char) : List (String × String) :=
  (splitOnChar '&' qs).filterMap (fun field =>
    if field.isEmpty then none
    else
      match splitOnceChar '=' field with
      | none => none
      | some (n, v) =>
        if v.isEmpty then none
        else some (⟨unquotePlus n⟩, ⟨unquotePlus v⟩))

/-- First-match lookup in an insertion-ordered association list (Python dict
read). -/
def assocFind {α : Type} (m : List (String × α)) (k : String) : Option α :=
  match m with
  | [] => none
  | (k2, v) :: rest => if k2 = k then some v else assocFind rest k

/-- Python dict write `m[k] = v` (replace in place, else append). -/
def assocSet {α : Type} (m : List (String × α)) (k : String) (v : α) : List (String × α) :=
  match m with
  | [] => [(k, v)]
  | (k2, v2) :: rest => if k2 = k then (k, v) :: rest else (k2, v2) :: assocSet rest k v

/-- Append one value for `parse_qs` aggregation. -/
def qsInsert (m : List (String × List String)) (k v : String) : List (String × List String) :=
  match m with
  | [] => [(k, [v])]
  | (k2, vs) :: rest => if k2 = k then (k2, vs ++ [v]) :: rest else (k2, vs) :: qsInsert rest k v

/-- `urllib.parse.parse_qs`: aggregate the `parse_qsl` pairs into a dict of
value lists, keys in first-appearance order. -/
def parse_qs (qs : List Char) : List (String × List String) :=
  (parseQsl qs).foldl (fun m p => qsInsert m p.1 p.2) []

/-! ## `ElenaDJ.authenticate_with_code` (backend.py lines 171-219) -/

/-- The query parameters the method sees: the callback URL is ASCII-cleaned,
then parsed with `urlparse` and `parse_qs`. -/
def callbackParams (url : String) : List (String × List String) :=
  parse_qs (urlQuery (asciiFilter url.data))

/-- `query_params.get('error_description', [''])[0]`. -/
def errDescOf (params : List (String × List String)) : String :=
  match assocFind params ("error_description") with
  | some (d :: _) => d
  | _ => ""

/-- `user_info.get('display_name') or user_id` (Python `or`: the empty display
name also falls back to the user id). -/
def displayNameOf (ui : UserInfo) : String :=
  match ui.displayName with
  | some d => if d = "" then ui.id else d
  | none => ui.id

/-- `token_info.get('access_token')` resp. the bare-string case. -/
def extractAccessToken : TokenResult → Option String
  | .tokDict o => o
  | .tokStr s => some s

/-- `if session_id not in self.spotify_auths: ... create_spotify_auth ...`. -/
def addAuthSession (l : List String) (sid : String) : List String :=
  if sid ∈ l then l else l ++ [sid]

/-- The body of `authenticate_with_code` inside its `try`: may end in an
exception (`Except.error`), which the wrapper below converts. The returned
state and trace reflect everything that happened before the raise. -/
def authenticate_with_code_body (env : Env) (st : DJState) (url : String)
    (sid : String) : Except String (Bool × String) × DJState × List NetEvent :=
  let params := callbackParams url
  match assocFind params ("code") with
  | none =>
    match assocFind params ("error") with
    | some (e :: _) =>
      (.ok (false, "Authentication failed: " ++ (e ++ (" - " ++ errDescOf params))), st, [])
    | _ =>
      (.ok (false, "No authorization code found in callback URL"), st, [])
  | some codes =>
    -- `query_params['code'][0]`; `parse_qs` never produces an empty value
    -- list, so the default is never used.
    let code := codes.head?.getD ""
    let st1 : DJState := { st with spotifyAuths := addAuthSession st.spotifyAuths sid }
    match env.getAccessToken sid code with
    | .error e => (.error e, st1, [.exchange code])
    | .ok none => (.ok (false, "Failed to exchange code for access token"), st1, [.exchange code])
    | .ok (some tr) =>
      let atok := extractAccessToken tr
      match env.currentUser atok with
      | .error e => (.error e, st1, [.exchange code, .probe atok])
      | .ok ui =>
        let nm := displayNameOf ui
        (.ok (true, "Successfully authenticated as " ++ nm),
          { st1 with spotifyClients := assocSet st1.spotifyClients ui.id ⟨atok⟩ },
          [.exchange code, .probe atok])

/-- `ElenaDJ.authenticate_with_code`: the `except` clauses convert any raised
exception into `(False, "Authentication error: ...")`. -/
def authenticate_with_code (env : Env) (st : DJState) (url : String)
    (sid : String) : (Bool × String) × DJState × List NetEvent :=
  let b := authenticate_with_code_body env st url sid
  match b.1 with
  | .ok r => (r, b.2.1, b.2.2)
  | .error e => ((false, "Authentication error: " ++ e), b.2.1, b.2.2)

/-! ## `ElenaDJ.get_authenticated_client` (backend.py lines 221-248) -/

/-- Whether the liveness probe (`client.current_user()`) of a pooled handle
succeeds. -/
def probeOk (env : Env) (p : String × SpClient) : Bool :=
  match env.currentUser p.2.token with
  | .ok _ => true
  | .error _ => false

/-- The loop over `list(self.spotify_clients.items())`: probe each handle in
pool order, return the first that responds, delete every handle whose probe
raised. Returns (result, surviving pool, issued probes). -/
def probeLoop (env : Env) : List (String × SpClient) →
    Option SpClient × List (String × SpClient) × List NetEvent
  | [] => (none, [], [])
  | (uid, c) :: rest =>
    match env.currentUser c.token with
    | .ok _ => (some c, (uid, c) :: rest, [.probe c.token])
    | .error _ =>
      let r := probeLoop env rest
      (r.1, r.2.1, .probe c.token :: r.2.2)

/-- The expiry check and refresh: `if auth.is_token_expired(token_info):
token_info = auth.refresh_access_token(...)`. -/
def refreshStep (env : Env) (ti : TokenInfo) : Except String (Option TokenInfo) × List NetEvent :=
  if ti.expired then
    match env.refreshAccessToken ti.refreshToken with
    | .error e => (.error e, [.refresh ti.refreshToken])
    | .ok r => (.ok r, [.refresh ti.refreshToken])
  else (.ok (some ti), [])

/-- The cached-token branch of `get_authenticated_client` (its `try` swallows
every exception and falls through to `return None`). -/
def tokenPath (env : Env) (st : DJState) (sid : String) :
    Option SpClient × DJState × List NetEvent :=
  if sid ∈ st.spotifyAuths then
    match env.getCachedToken sid with
    | .error _ => (none, st, [])
    | .ok none => (none, st, [])
    | .ok (some ti) =>
      match refreshStep env ti with
      | (.error _, tr) => (none, st, tr)
      | (.ok none, tr) => (none, st, tr)
      | (.ok (some ti2), tr) =>
        -- `client = spotipy.Spotify(auth=token_info['access_token'])`
        match env.currentUser (some ti2.accessToken) with
        | .error _ => (none, st, tr ++ [.probe (some ti2.accessToken)])
        | .ok ui =>
          (some ⟨some ti2.accessToken⟩,
            { st with spotifyClients :=
                assocSet st.spotifyClients ui.id ⟨some ti2.accessToken⟩ },
            tr ++ [.probe (some ti2.accessToken)])
  else (none, st, [])

/-- `ElenaDJ.get_authenticated_client`. -/
def get_authenticated_client (env : Env) (st : DJState) (sid : String) :
    Option SpClient × DJState × List NetEvent :=
  let pr := probeLoop env st.spotifyClients
  let st1 : DJState := { st with spotifyClients := pr.2.1 }
  match pr.1 with
  | some c => (some c, st1, pr.2.2)
  | none =>
    let tp := tokenPath env st1 sid
    (tp.1, tp.2.1, pr.2.2 ++ tp.2.2)

/-! ## `ElenaDJ.search_ai_recommended_tracks` (backend.py lines 360-464) -/

/-- The `search_data` dictionary fields the method reads (absent keys use the
dict `get` defaults `[]` and `'English'`). -/
structure SearchData where
  recommendedSongs : Option (List String)
  languagePreference : Option String

/-- The `language_config` table. -/
def language_config : List (String × (List String × Nat)) :=
  [ ("English", (["US", "GB", "CA", "AU"], 60)),
    ("Spanish", (["ES", "MX", "AR", "CO"], 45)),
    ("Turkish", (["TR"], 45)),
    ("French", (["FR", "CA", "BE"], 45)),
    ("German", (["DE", "AT", "CH"], 45)),
    ("Italian", (["IT"], 45)),
    ("Portuguese", (["BR", "PT"], 45)),
    ("Japanese", (["JP"], 40)),
    ("Korean", (["KR"], 40)) ]

/-- `language_config.get(language, language_config['English'])`. -/
def configFor (lang : String) : List String × Nat :=
  match assocFind language_config lang with
  | some c => c
  | none =>
    match assocFind language_config ("English") with
    | some c => c
    | none => ([], 0)

/-- The literal separator of the `"Artist - Song Title"` convention. -/
def sepChars : List Char := [' ', '-', ' ']

/-- The per-candidate label parse (backend.py lines 394-401): split on the
first `" - "` if present, else empty artist and the stripped whole label. -/
def parse_song_label (s : String) : String × String :=
  match findSub sepChars s.data with
  | some i => (⟨pyStrip (s.data.take i)⟩, ⟨pyStrip (s.data.drop (i + 3))⟩)
  | none => ("", ⟨pyStrip s.data⟩)

/-- `f'"{x}"'`. -/
def quoteStr (s : String) : String := "\"" ++ (s ++ "\"")

/-- The fallback chain of search queries (backend.py lines 403-413). -/
def buildQueries (artist title : String) : List String :=
  if !artist.isEmpty && !title.isEmpty then
    [ "artist:\"" ++ (artist ++ ("\" track:\"" ++ (title ++ "\""))),
      quoteStr artist ++ (" " ++ quoteStr title),
      artist ++ (" " ++ title),
      "track:\"" ++ (title ++ "\"") ]
  else [quoteStr title, title]

/-- The three primary acceptance gates (backend.py lines 433-435): URI not yet
collected, track popularity at least the threshold, at least one artist. -/
def passesGates (uris : List String) (minPop : Nat) (t : Track) : Bool :=
  decide (¬ t.uri ∈ uris) && decide (minPop ≤ t.popularity.getD 0) &&
    decide (0 < t.artists.length)

/-- The scan over one search result page (backend.py lines 432-450): accept
the first gated track, where the artist-popularity check applies only when the
artist lookup succeeds — a raised lookup accepts the track anyway. -/
def scanTracks (env : Env) (tok : Option String) (minPop : Nat)
    (uris : List String) : List Track → Option String × List NetEvent
  | [] => (none, [])
  | t :: rest =>
    if passesGates uris minPop t then
      match t.artists with
      | a :: _ =>
        match env.artist tok a.id with
        | .ok info =>
          if info.getD 0 ≥ minPop - 20 then (some t.uri, [.artistLookup a.id])
          else
            let s := scanTracks env tok minPop uris rest
            (s.1, .artistLookup a.id :: s.2)
        | .error _ => (some t.uri, [.artistLookup a.id])
      | [] => scanTracks env tok minPop uris rest -- unreachable: the gates require an artist
    else scanTracks env tok minPop uris rest

/-- The query loop for one market (backend.py lines 420-454): a failed search
call is logged and the next query tried. -/
def tryQueries (env : Env) (tok : Option String) (minPop : Nat)
    (uris : List String) (market : String) : List String → Option String × List NetEvent
  | [] => (none, [])
  | q :: qs =>
    match env.search tok q market with
    | .error _ =>
      let r := tryQueries env tok minPop uris market qs
      (r.1, .search q market :: r.2)
    | .ok tracks =>
      let s := scanTracks env tok minPop uris tracks
      match s.1 with
      | some uri => (some uri, .search q market :: s.2)
      | none =>
        let r := tryQueries env tok minPop uris market qs
        (r.1, .search q market :: (s.2 ++ r.2))

/-- The market loop (backend.py lines 416-454). -/
def tryMarkets (env : Env) (tok : Option String) (minPop : Nat)
    (uris : List String) (queries : List String) : List String → Option String × List NetEvent
  | [] => (none, [])
  | m :: ms =>
    let r := tryQueries env tok minPop uris m queries
    match r.1 with
    | some uri => (some uri, r.2)
    | none =>
      let r2 := tryMarkets env tok minPop uris queries ms
      (r2.1, r.2 ++ r2.2)

/-- Resolution of one song candidate: parse the label, build the fallback
chain, scan markets in table order; the first accepted URI wins. -/
def resolveCandidate (env : Env) (tok : Option String) (minPop : Nat)
    (markets : List String) (uris : List String) (label : String) :
    Option String × List NetEvent :=
  let p := parse_song_label label
  tryMarkets env tok minPop uris (buildQueries p.1 p.2) markets

/-- The candidate loop (backend.py lines 390-458): stop once `target` URIs are
collected, append at most one URI per candidate. -/
def resolveLoop (env : Env) (tok : Option String) (minPop : Nat)
    (markets : List String) (target : Nat) :
    List String → List String → List String × List NetEvent
  | [], uris => (uris, [])
  | song :: rest, uris =>
    if uris.length ≥ target then (uris, [])
    else
      let rc := resolveCandidate env tok minPop markets uris song
      match rc.1 with
      | some uri =>
        let nxt := resolveLoop env tok minPop markets target rest (uris ++ [uri])
        (nxt.1, rc.2 ++ nxt.2)
      | none =>
        let nxt := resolveLoop env tok minPop markets target rest uris
        (nxt.1, rc.2 ++ nxt.2)

/-- `ElenaDJ.search_ai_recommended_tracks`: acquire a client for the default
session (an unauthenticated state resolves to the empty list), look up the
language profile, then run the candidate loop. -/
def search_ai_recommended_tracks (env : Env) (st : DJState) (sdata : SearchData)
    (target : Nat) : List String × DJState × List NetEvent :=
  match get_authenticated_client env st ("default") with
  | (none, st1, tr) => ([], st1, tr)
  | (some c, st1, tr) =>
    let songs := sdata.recommendedSongs.getD []
    let lang := sdata.languagePreference.getD ("English")
    let cfg := configFor lang
    let rl := resolveLoop env c.token cfg.2 cfg.1 target songs []
    (rl.1, st1, tr ++ rl.2)

/-! ## `ElenaDJ.create_playlist` (backend.py lines 466-505) -/

/-- The `name`/`description` dictionary handed to `create_playlist`. -/
structure PlaylistData where
  name : String
  description : String

/-- The possible return dictionaries of `create_playlist`. -/
inductive PlaylistOutcome
  | authNeeded
  | errorMsg (msg : String)
  | created (url nm : String) (count : Nat) (samples : List String)
deriving DecidableEq

/-- `', '.join`. -/
def joinSep (sep : String) : List String → String
  | [] => ""
  | [x] => x
  | x :: xs => x ++ (sep ++ joinSep sep xs)

/-- `ElenaDJ.create_playlist`: note the playlist is created before the empty
track list is checked; any exception becomes the
`"Failed to create playlist: ..."` error dictionary. -/
def create_playlist (env : Env) (st : DJState) (pd : PlaylistData)
    (uris : List String) : PlaylistOutcome × DJState × List NetEvent :=
  match get_authenticated_client env st ("default") with
  | (none, st1, tr) => (.authNeeded, st1, tr)
  | (some c, st1, tr) =>
    match env.currentUser c.token with
    | .error e => (.errorMsg ("Failed to create playlist: " ++ e), st1, tr ++ [.probe c.token])
    | .ok ui =>
      match env.createPlaylist c.token ui.id pd.name pd.description with
      | .error e =>
        (.errorMsg ("Failed to create playlist: " ++ e), st1,
          tr ++ [.probe c.token, .createPlaylist ui.id pd.name pd.description])
      | .ok pl =>
        if uris.isEmpty then
          (.errorMsg ("No tracks found matching your preferences"), st1,
            tr ++ [.probe c.token, .createPlaylist ui.id pd.name pd.description])
        else
          match env.addItems c.token pl.id uris with
          | .error e =>
            (.errorMsg ("Failed to create playlist: " ++ e), st1,
              tr ++ [.probe c.token, .createPlaylist ui.id pd.name pd.description,
                .addItems pl.id uris])
          | .ok _ =>
            match env.tracks c.token (uris.take 5) with
            | .error e =>
              (.errorMsg ("Failed to create playlist: " ++ e), st1,
                tr ++ [.probe c.token, .createPlaylist ui.id pd.name pd.description,
                  .addItems pl.id uris, .tracksLookup (uris.take 5)])
            | .ok ts =>
              let samples := ts.map (fun t =>
                t.name ++ (" by " ++ joinSep (", ") (t.artists.map (fun a => a.name))))
              (.created pl.url pl.name uris.length samples, st1,
                tr ++ [.probe c.token, .createPlaylist ui.id pd.name pd.description,
                  .addItems pl.id uris, .tracksLookup (uris.take 5)])

/-! ## Specification-side notions used by the theorems -/

/-- `p` is a prefix of `s` (Boolean, over the character lists). -/
def strHasPre (p s : String) : Bool := p.data.isPrefixOf s.data

/-- The complete taxonomy of failure messages `authenticate_with_code` can
produce. -/
def isFailureMsg (m : String) : Bool :=
  (m == "No authorization code found in callback URL") ||
  ((m == "Failed to exchange code for access token") ||
  (strHasPre ("Authentication failed: ") m || strHasPre ("Authentication error: ") m))

/-- A `(success flag, message)` pair is well formed: a success carries the
success message, a failure carries one of the failure messages. -/
def authResultWF (r : Bool × String) : Bool :=
  if r.1 then strHasPre ("Successfully authenticated as ") r.2 else isFailureMsg r.2

/-- The pool entries whose liveness probe is issued and raises during
`get_authenticated_client`: probing stops at the first success, so these are
exactly the failing entries before the first live one. -/
def probedFailures (env : Env) (pool : List (String × SpClient)) :
    List (String × SpClient) :=
  pool.takeWhile (fun p => !(probeOk env p))

/-! ## Concrete fixtures for witnesses and counterexamples -/

/-- An environment in which every external call raises. -/
def envStub : Env :=
  { currentUser := fun _ => .error "offline",
    search := fun _ _ _ => .error "offline",
    artist := fun _ _ => .error "offline",
    getCachedToken := fun _ => .error "offline",
    refreshAccessToken := fun _ => .error "offline",
    getAccessToken := fun _ _ => .error "offline",
    createPlaylist := fun _ _ _ _ => .error "offline",
    addItems := fun _ _ _ => .error "offline",
    tracks := fun _ _ => .error "offline" }

/-- Every identity probe succeeds. -/
def envLive : Env :=
  { envStub with currentUser := fun _ => .ok ⟨"user1", some "User One"⟩ }

/-- Probes fail for the client constructed from token `dead` and succeed for
any other. -/
def envSelective : Env :=
  { envStub with
    currentUser := fun t =>
      if t = some ("dead") then .error "gone" else .ok ⟨"user1", none⟩ }

/-- The code-for-token exchange and the follow-up identity probe succeed. -/
def envExchange : Env :=
  { envStub with
    getAccessToken := fun _ _ => .ok (some (.tokDict (some "tokB"))),
    currentUser := fun _ => .ok ⟨"user1", some "User One"⟩ }

/-- Probes succeed and playlist creation succeeds. -/
def envPublisher : Env :=
  { envLive with
    createPlaylist := fun _ _ nm _ => .ok ⟨"pl1", "https://open.spotify.com/playlist/pl1", nm⟩ }

/-- Fresh instance state: empty pools. -/
def stEmpty : DJState := ⟨[], []⟩

/-- One pooled client handle. -/
def stPool1 : DJState := ⟨[("u0", ⟨some ("tokA")⟩)], []⟩

/-- A dead handle ahead of a live one in the pool. -/
def stDeadLive : DJState :=
  ⟨[("ua", ⟨some ("dead")⟩), ("ub", ⟨some ("live")⟩)], []⟩

/-- A callback URL carrying both a `code` and an `error` parameter. -/
def urlBoth : String :=
  "http://127.0.0.1:5000/api/spotify-callback?code=abc&error=access_denied&error_description=User+denied+access"

/-- A callback URL carrying an `error` parameter and no `code`. -/
def urlErrOnly : String :=
  "http://127.0.0.1:5000/api/spotify-callback?error=access_denied&error_description=User+denied+access"

/-- A gated search-result track whose primary artist is `ar0`. -/
def trackGood : Track := ⟨"spotify:track:good", some 70, [⟨"ar0", "Artist Zero"⟩], "Song Zero"⟩

/-! ## Helper lemmas: character-list pipeline of `clean_credential` -/

theorem mem_removeSubAux (pat : List Char) :
    ∀ (l : List Char) (k : Nat) (c : Char), c ∈ removeSubAux pat l k → c ∈ l := by
  intro l
  induction l with
  | nil => intro k c hc; cases k <;> simp [removeSubAux] at hc
  | cons x rest ih =>
    intro k c hc
    cases k with
    | succ k2 =>
      simp only [removeSubAux] at hc
      exact List.mem_cons_of_mem x (ih k2 c hc)
    | zero =>
      simp only [removeSubAux] at hc
      by_cases hp : (!pat.isEmpty && pat.isPrefixOf (x :: rest)) = true
      · rw [if_pos hp] at hc
        exact List.mem_cons_of_mem x (ih _ c hc)
      · rw [if_neg hp] at hc
        rcases List.mem_cons.mp hc with rfl | h2
        · exact List.mem_cons_self _ _
        · exact List.mem_cons_of_mem x (ih 0 c h2)

theorem mem_removeSub (pat l : List Char) (c : Char) (hc : c ∈ removeSub pat l) : c ∈ l :=
  mem_removeSubAux pat l 0 c hc

theorem mem_foldl_removeSub :
    ∀ (pats : List (List Char)) (l : List Char) (c : Char),
      c ∈ pats.foldl (fun acc pat => removeSub pat acc) l → c ∈ l := by
  intro pats
  induction pats with
  | nil => intro l c h; simpa using h
  | cons p ps ih =>
    intro l c h
    exact mem_removeSub p l c (ih (removeSub p l) c (by simpa using h))

theorem mem_rstripWS : ∀ (l : List Char) (c : Char), c ∈ rstripWS l → c ∈ l := by
  intro l
  induction l with
  | nil => intro c h; simp [rstripWS] at h
  | cons x rest ih =>
    intro c h
    simp only [rstripWS] at h
    by_cases hcond : ((rstripWS rest).isEmpty && pyWS x) = true
    · rw [if_pos hcond] at h; simp at h
    · rw [if_neg hcond] at h
      rcases List.mem_cons.mp h with rfl | h2
      · exact List.mem_cons_self _ _
      · exact List.mem_cons_of_mem x (ih c h2)

theorem rstripWS_head (l : List Char) (c : Char) (h : (rstripWS l).head? = some c) :
    l.head? = some c := by
  cases l with
  | nil => simp [rstripWS] at h
  | cons x rest =>
    simp only [rstripWS] at h
    by_cases hcond : ((rstripWS rest).isEmpty && pyWS x) = true
    · rw [if_pos hcond] at h; simp at h
    · rw [if_neg hcond] at h
      simp only [List.head?_cons] at h ⊢
      exact h

theorem mem_dropWhile (p : Char → Bool) :
    ∀ (l : List Char) (c : Char), c ∈ List.dropWhile p l → c ∈ l := by
  intro l
  induction l with
  | nil => intro c h; simp [List.dropWhile] at h
  | cons x rest ih =>
    intro c h
    by_cases hp : p x = true
    · rw [List.dropWhile_cons, if_pos hp] at h
      exact List.mem_cons_of_mem x (ih c h)
    · rw [List.dropWhile_cons, if_neg hp] at h
      exact h

theorem dropWhile_head_not (p : Char → Bool) :
    ∀ (l : List Char) (c : Char), (List.dropWhile p l).head? = some c → p c = false := by
  intro l
  induction l with
  | nil => intro c h; simp [List.dropWhile] at h
  | cons x rest ih =>
    intro c h
    by_cases hp : p x = true
    · rw [List.dropWhile_cons, if_pos hp] at h
      exact ih c h
    · rw [List.dropWhile_cons, if_neg hp] at h
      simp only [List.head?_cons, Option.some.injEq] at h
      subst h
      exact Bool.eq_false_iff.mpr hp

theorem mem_pyStrip (l : List Char) (c : Char) (h : c ∈ pyStrip l) : c ∈ l :=
  mem_dropWhile pyWS l c (mem_rstripWS _ c h)

theorem pyStrip_head (l : List Char) (c : Char) (h : (pyStrip l).head? = some c) :
    pyWS c = false :=
  dropWhile_head_not pyWS l c (rstripWS_head _ c h)

theorem filter_head_of (q : Char → Bool) (l : List Char) (c : Char)
    (h : l.head? = some c) (hq : q c = true) : (l.filter q).head? = some c := by
  cases l with
  | nil => simp at h
  | cons x rest =>
    simp only [List.head?_cons, Option.some.injEq] at h
    subst h
    simp [List.filter_cons, hq]

theorem dropLast_head (l : List Char) (c : Char) (h : l.dropLast.head? = some c) :
    l.head? = some c := by
  cases l with
  | nil => simp at h
  | cons x rest =>
    cases rest with
    | nil => simp [List.dropLast] at h
    | cons y t =>
      simp only [List.dropLast_cons₂, List.head?_cons] at h ⊢
      exact h

theorem mem_dropTrailingArtifact (l : List Char) (c : Char)
    (h : c ∈ dropTrailingArtifact l) : c ∈ l := by
  unfold dropTrailingArtifact at h
  split at h
  · split at h
    · exact h
    · exact (List.dropLast_sublist l).subset h
  · exact h

theorem dropTrailingArtifact_head (l : List Char) (c : Char)
    (h : (dropTrailingArtifact l).head? = some c) : l.head? = some c := by
  unfold dropTrailingArtifact at h
  split at h
  · split at h
    · exact h
    · exact dropLast_head l c h
  · exact h

theorem asciiFilter_lt (l : List Char) (c : Char) (h : c ∈ asciiFilter l) :
    c.toNat < 128 :=
  of_decide_eq_true (List.mem_filter.mp h).2

theorem clean_credential_data (s : String) (h : s.isEmpty = false) :
    (clean_credential s).data =
      dropTrailingArtifact
        (((pyStrip (unwantedSubs.foldl (fun acc pat => removeSub pat acc)
          (asciiFilter s.data))).filter (fun c => c != '\n')).filter
            (fun c => c != '\r')) := by
  simp [clean_credential, h]

/-! ## Claim C10 -/

/-- C10 (counterexample): the claim "no trailing whitespace" fails. On input
`"ab ."` the trailing-artifact removal deletes the final `'.'` and exposes a
trailing space, so `clean_credential` returns `"ab "`. -/
theorem clean_credential_trailing_ws_counterexample :
    clean_credential ("ab .") = "ab " ∧
    (clean_credential ("ab .")).data.getLast? = some ' ' ∧
    pyWS ' ' = true := by
  refine ⟨rfl, rfl, rfl⟩

/-- C10 (amended): for every input, `clean_credential` returns only ASCII
characters, contains no newline or carriage return anywhere, starts with a
non-whitespace character (when non-empty), and returns `""` on the empty
input. (The original claim additionally forbade trailing whitespace, which
the final artifact-removal step can expose.) -/
theorem clean_credential_ascii_no_newline_no_leading_ws (s : String) :
    ((clean_credential s).data.all (fun c => decide (c.toNat < 128))) = true ∧
    ((clean_credential s).data.all (fun c => (c != '\n') && (c != '\r'))) = true ∧
    (match (clean_credential s).data.head? with
      | some c => pyWS c = false
      | none => True) ∧
    clean_credential "" = "" := by
  by_cases hs : s.isEmpty = true
  · have hempty : clean_credential s = "" := by simp [clean_credential, hs]
    refine ⟨?_, ?_, ?_, rfl⟩ <;> simp [hempty]
  · have hdata := clean_credential_data s (Bool.eq_false_iff.mpr hs)
    have hmem : ∀ c ∈ (clean_credential s).data,
        c ∈ asciiFilter s.data ∧ (c != '\n') = true ∧ (c != '\r') = true := by
      intro c hc
      rw [hdata] at hc
      have h4 := mem_dropTrailingArtifact _ c hc
      have h3 := List.mem_filter.mp h4
      have h2 := List.mem_filter.mp h3.1
      exact ⟨mem_foldl_removeSub _ _ c (mem_pyStrip _ c h2.1), h2.2, h3.2⟩
    refine ⟨?_, ?_, ?_, rfl⟩
    · exact List.all_eq_true.mpr (fun c hc =>
       decide_eq_true (asciiFilter_lt s.data c (hmem c hc).1))
    · refine List.all_eq_true.mpr (fun c hc => ?_)
      have h := hmem c hc
      simp [h.2.1, h.2.2]
    · cases hh : (clean_credential s).data.head? with
      | none => simp
      | some c =>
        rw [hdata] at hh
        have h4 := dropTrailingArtifact_head _ c hh
        cases h2 : (pyStrip (unwantedSubs.foldl (fun acc pat => removeSub pat acc)
            (asciiFilter s.data))).head? with
        | none =>
          rw [List.head?_eq_none_iff.mp h2] at h4
          simp at h4
        | some h0 =>
          have hws : pyWS h0 = false := pyStrip_head _ h0 h2
          have hn : (h0 != '\n') = true := by
            refine bne_iff_ne.mpr (fun he => ?_)
            rw [he] at hws
            exact absurd hws (by decide)
          have hr : (h0 != '\r') = true := by
            refine bne_iff_ne.mpr (fun he => ?_)
            rw [he] at hws
            exact absurd hws (by decide)
          have h3a := filter_head_of (fun c => c != '\n') _ h0 h2 hn
          have h3 := filter_head_of (fun c => c != '\r') _ h0 h3a hr
          rw [h3] at h4
          cases h4
          exact hws

/-! ## Claim C7: label parsing helper lemmas -/

theorem findSub_spec (pat : List Char) :
    ∀ (l : List Char) (i : Nat), findSub pat l = some i →
      occursAt pat l i = true ∧ ∀ j, j < i → occursAt pat l j = false := by
  intro l
  induction l with
  | nil =>
    intro i h
    simp only [findSub] at h
    by_cases hp : pat.isEmpty = true
    · rw [if_pos hp] at h
      cases h
      refine ⟨?_, fun j hj => absurd hj (Nat.not_lt_zero j)⟩
      rw [List.isEmpty_iff.mp hp]
      rfl
    · rw [if_neg hp] at h
      cases h
  | cons x rest ih =>
    intro i h
    simp only [findSub] at h
    by_cases hp : pat.isPrefixOf (x :: rest) = true
    · rw [if_pos hp] at h
      cases h
      exact ⟨hp, fun j hj => absurd hj (Nat.not_lt_zero j)⟩
    · rw [if_neg hp] at h
      cases hrec : findSub pat rest with
      | none => rw [hrec] at h; cases h
      | some i0 =>
        rw [hrec] at h
        simp only [Option.map_some', Option.some.injEq] at h
        subst h
        obtain ⟨h1, h2⟩ := ih i0 hrec
        refine ⟨h1, fun j hj => ?_⟩
        cases j with
        | zero =>
          simpa [occursAt] using Bool.eq_false_iff.mpr hp
        | succ j2 =>
          have hj2 : occursAt pat rest j2 = false := h2 j2 (Nat.lt_of_succ_lt_succ hj)
          unfold occursAt at hj2 ⊢
          rw [List.drop_succ_cons]
          exact hj2

/-- C7: the artist/title split of a song-candidate label uses only the first
occurrence of the literal separator `" - "`: when the separator occurs, the
split point returned by `findSub` is a real occurrence, no earlier position
is an occurrence, artist is the trimmed left part and title the trimmed
remainder; when the separator is absent, artist is empty and title is the
whole trimmed label. -/
theorem parse_song_label_first_sep (s : String) :
    (findSub sepChars s.data = none →
      parse_song_label s = ("", ⟨pyStrip s.data⟩)) ∧
    (∀ i, findSub sepChars s.data = some i →
      occursAt sepChars s.data i = true ∧
      ((List.range i).all (fun j => !(occursAt sepChars s.data j))) = true ∧
      parse_song_label s = (⟨pyStrip (s.data.take i)⟩, ⟨pyStrip (s.data.drop (i + 3))⟩)) := by
  constructor
  · intro h
    simp [parse_song_label, h]
  · intro i h
    obtain ⟨h1, h2⟩ := findSub_spec sepChars s.data i h
    refine ⟨h1, ?_, by simp [parse_song_label, h]⟩
    exact List.all_eq_true.mpr (fun j hj =>
      by simpa using h2 j (List.mem_range.mp hj))

/-- C7 (witness): on `"A - B - C"` the split point is the first separator at
index 1, before which no separator occurs, and the parse yields artist `"A"`
and title `"B - C"`. -/
theorem parse_song_label_first_sep_witness :
    occursAt sepChars ("A - B - C").data 1 = true ∧
    ((List.range 1).all (fun j => !(occursAt sepChars ("A - B - C").data j))) = true ∧
    parse_song_label ("A - B - C") =
      (⟨pyStrip (("A - B - C").data.take 1)⟩, ⟨pyStrip (("A - B - C").data.drop 4)⟩) :=
  (parse_song_label_first_sep ("A - B - C")).2 1 rfl

/-! ## Claims C2 and C9: `authenticate_with_code` -/

theorem isPrefixOf_self_append (l t : List Char) : l.isPrefixOf (l ++ t) = true := by
  induction l with
  | nil => simp [List.isPrefixOf]
  | cons x xs ih => simp [List.isPrefixOf, ih]

theorem strHasPre_append (p s : String) : strHasPre p (p ++ s) = true := by
  unfold strHasPre
  have hd : (p ++ s).data = p.data ++ s.data := rfl
  rw [hd]
  exact isPrefixOf_self_append p.data s.data

/-- C2 (counterexample): the claim quantifies over every callback URL whose
query string contains an `error` parameter, but the method checks for `code`
first. On a URL carrying both `code=abc` and `error=access_denied`, with an
exchange that succeeds, the method returns success — not failure — and the
code-for-token exchange is performed. -/
theorem authenticate_error_param_counterexample :
    assocFind (callbackParams urlBoth) ("error") = some ["access_denied"] ∧
    (authenticate_with_code envExchange stEmpty urlBoth ("default")).1.1 = true ∧
    NetEvent.exchange ("abc") ∈
      (authenticate_with_code envExchange stEmpty urlBoth ("default")).2.2 := by
  refine ⟨rfl, rfl, by decide⟩

/-- C2 (amended): for every callback URL whose parsed query contains an
`error` parameter and no `code` parameter, `authenticate_with_code` fails
with a message carrying the provider's error code and description, leaves the
state unchanged and issues no network call at all — in particular no
code-for-token exchange. -/
theorem auth_error_without_code (env : Env) (st : DJState) (url sid : String)
    (e : String) (vs : List String)
    (hc : assocFind (callbackParams url) ("code") = none)
    (he : assocFind (callbackParams url) ("error") = some (e :: vs)) :
    authenticate_with_code env st url sid =
      ((false, "Authentication failed: " ++ (e ++ (" - " ++ errDescOf (callbackParams url)))),
        st, []) := by
  unfold authenticate_with_code authenticate_with_code_body
  simp [hc, he]

/-- C2 (witness): concrete denied-authorization callback. -/
theorem auth_error_without_code_witness :
    authenticate_with_code envStub stEmpty urlErrOnly ("default") =
      ((false, "Authentication failed: " ++
        ("access_denied" ++ (" - " ++ errDescOf (callbackParams urlErrOnly)))),
        stEmpty, []) :=
  auth_error_without_code envStub stEmpty urlErrOnly ("default") "access_denied" [] rfl rfl

/-- C9: `authenticate_with_code` is total at its public interface: for every
environment (including ones whose calls all raise), every state, callback URL
and session id it returns a well-formed `(success flag, message)` pair — a
success carries the success message and every failure of parsing, exchange or
validation is converted into `False` with one of the failure messages. -/
theorem authenticate_with_code_total (env : Env) (st : DJState) (url sid : String) :
    authResultWF (authenticate_with_code env st url sid).1 = true := by
  unfold authenticate_with_code authenticate_with_code_body
  cases hcode : assocFind (callbackParams url) ("code") with
  | none =>
    cases herr : assocFind (callbackParams url) ("error") with
    | none => simp [hcode, herr, authResultWF, isFailureMsg]
    | some vs =>
      cases vs with
      | nil => simp [hcode, herr, authResultWF, isFailureMsg]
      | cons e es => simp [hcode, herr, authResultWF, isFailureMsg, strHasPre_append]
  | some codes =>
    cases hex : env.getAccessToken sid (codes.head?.getD "") with
    | error e => simp [hcode, hex, authResultWF, isFailureMsg, strHasPre_append]
    | ok tr =>
      cases tr with
      | none => simp [hcode, hex, authResultWF, isFailureMsg]
      | some t =>
        cases hcu : env.currentUser (extractAccessToken t) with
        | error e => simp [hcode, hex, hcu, authResultWF, isFailureMsg, strHasPre_append]
        | ok ui => simp [hcode, hex, hcu, authResultWF, strHasPre_append]

/-! ## Claim C3: `get_authenticated_client` pool probing -/

theorem probeLoop_fst (env : Env) : ∀ l : List (String × SpClient),
    (probeLoop env l).1 = (List.find? (fun p => probeOk env p) l).map (fun p => p.2) := by
  intro l
  induction l with
  | nil => rfl
  | cons hd rest ih =>
    obtain ⟨uid, c⟩ := hd
    cases hcu : env.currentUser c.token with
    | ok ui =>
      have hp : probeOk env (uid, c) = true := by simp [probeOk, hcu]
      rw [List.find?_cons_of_pos _ hp]
      simp [probeLoop, hcu]
    | error e =>
      have hp : ¬ probeOk env (uid, c) = true := by simp [probeOk, hcu]
      rw [List.find?_cons_of_neg _ hp]
      simp [probeLoop, hcu, ih]

theorem probeLoop_pool (env : Env) : ∀ l : List (String × SpClient),
    (probeLoop env l).2.1 = l.dropWhile (fun p => !(probeOk env p)) := by
  intro l
  induction l with
  | nil => rfl
  | cons hd rest ih =>
    obtain ⟨uid, c⟩ := hd
    cases hcu : env.currentUser c.token with
    | ok ui =>
      have hp : (!(probeOk env (uid, c))) = false := by simp [probeOk, hcu]
      rw [List.dropWhile_cons, if_neg (by simp [hp])]
      simp [probeLoop, hcu]
    | error e =>
      have hp : (!(probeOk env (uid, c))) = true := by simp [probeOk, hcu]
      rw [List.dropWhile_cons, if_pos hp]
      simp [probeLoop, hcu, ih]

theorem tokenPath_pool_mem (env : Env) (st : DJState) (sid : String)
    (hpool : st.spotifyClients = []) (p : String × SpClient)
    (hmem : p ∈ (tokenPath env st sid).2.1.spotifyClients) :
    probeOk env p = true := by
  unfold tokenPath at hmem
  split at hmem
  · split at hmem
    · simp [hpool] at hmem
    · simp [hpool] at hmem
    · split at hmem
      · simp [hpool] at hmem
      · simp [hpool] at hmem
      · split at hmem
        · simp [hpool] at hmem
        · next ti2 ui heq =>
          rw [hpool] at hmem
          simp only [assocSet, List.mem_singleton] at hmem
          subst hmem
          simp [probeOk, heq]
  · simp [hpool] at hmem

/-- C3: during every call of `get_authenticated_client` (assuming the dict
invariant that pool keys are distinct), every pooled handle whose liveness
probe raises — the failing prefix before the first live handle — is removed
from the handle pool, and when some handle's probe succeeds, the first such
handle is returned. -/
theorem get_client_evicts_failed_probes (env : Env) (st : DJState) (sid : String)
    (h : (st.spotifyClients.map Prod.fst).Nodup) :
    ((probedFailures env st.spotifyClients).all
      (fun p => decide (¬ p ∈ (get_authenticated_client env st sid).2.1.spotifyClients))) = true ∧
    (match List.find? (fun p => probeOk env p) st.spotifyClients with
      | some p => (get_authenticated_client env st sid).1 = some p.2
      | none => True) := by
  constructor
  · refine List.all_eq_true.mpr (fun p hp => decide_eq_true ?_)
    intro hmem
    have hp2 : p ∈ List.takeWhile (fun q => !(probeOk env q)) st.spotifyClients := by
      simpa [probedFailures] using hp
    have hpfail := List.mem_takeWhile_imp hp2
    cases hf : List.find? (fun q => probeOk env q) st.spotifyClients with
    | some q =>
      have hpoolEq : (get_authenticated_client env st sid).2.1.spotifyClients
          = st.spotifyClients.dropWhile (fun q => !(probeOk env q)) := by
        unfold get_authenticated_client
        simp [probeLoop_fst, probeLoop_pool, hf]
      rw [hpoolEq] at hmem
      have hsplit := List.takeWhile_append_dropWhile (fun q => !(probeOk env q)) st.spotifyClients
      have h2 : ((st.spotifyClients.takeWhile (fun q => !(probeOk env q))).map Prod.fst ++
          (st.spotifyClients.dropWhile (fun q => !(probeOk env q))).map Prod.fst).Nodup := by
        rw [← List.map_append, hsplit]
        exact h
      have hdisj := (List.nodup_append.mp h2).2.2
      exact hdisj (List.mem_map_of_mem Prod.fst hp) (List.mem_map_of_mem Prod.fst hmem)
    | none =>
      have hall : ∀ q ∈ st.spotifyClients, ¬ probeOk env q = true := by
        simpa using List.find?_eq_none.mp hf
      have hnil : st.spotifyClients.dropWhile (fun q => !(probeOk env q)) = [] :=
        List.dropWhile_eq_nil_iff.mpr (fun q hq => by simpa using hall q hq)
      have hfinal : (get_authenticated_client env st sid).2.1 =
          (tokenPath env { st with spotifyClients := [] } sid).2.1 := by
        unfold get_authenticated_client
        simp [probeLoop_fst, probeLoop_pool, hf, hnil]
      rw [hfinal] at hmem
      have hok := tokenPath_pool_mem env { st with spotifyClients := [] } sid rfl p hmem
      simp [hok] at hpfail
  · cases hf : List.find? (fun q => probeOk env q) st.spotifyClients with
    | some q =>
      have hres : (get_authenticated_client env st sid).1 = some q.2 := by
        unfold get_authenticated_client
        simp [probeLoop_fst, hf]
      exact hres
    | none => trivial

/-- C3 (witness): a dead handle ahead of a live one — the dead handle is
evicted and the live one is returned. -/
theorem get_client_evicts_failed_probes_witness :
    ((probedFailures envSelective stDeadLive.spotifyClients).all
      (fun p => decide (¬ p ∈
        (get_authenticated_client envSelective stDeadLive ("default")).2.1.spotifyClients))) = true ∧
    (match List.find? (fun p => probeOk envSelective p) stDeadLive.spotifyClients with
      | some p => (get_authenticated_client envSelective stDeadLive ("default")).1 = some p.2
      | none => True) :=
  get_client_evicts_failed_probes envSelective stDeadLive ("default") (by decide)

/-! ## Claim C4: `target_count = 0` -/

theorem resolveLoop_zero (env : Env) (tok : Option String) (mp : Nat)
    (mkts : List String) : ∀ songs : List String,
    resolveLoop env tok mp mkts 0 songs [] = ([], []) := by
  intro songs
  cases songs with
  | nil => rfl
  | cons song rest => simp [resolveLoop]

/-- C4 (amended): with `target_count = 0`, `search_ai_recommended_tracks`
returns the empty sequence and issues no search, artist-lookup or any other
resolution call — its result state and entire network trace are exactly those
of the `get_authenticated_client` call it begins with (which may itself issue
identity probes and a token refresh). -/
theorem resolve_zero_target_no_search (env : Env) (st : DJState) (sdata : SearchData) :
    search_ai_recommended_tracks env st sdata 0 =
      ([], (get_authenticated_client env st ("default")).2) := by
  unfold search_ai_recommended_tracks
  rcases hac : get_authenticated_client env st ("default") with ⟨r, st1, tr⟩
  cases r with
  | none => simp
  | some c => simp [resolveLoop_zero]

/-- C4 (counterexample): the claim says no network calls of any kind. With a
pooled live handle, the call with `target_count = 0` still issues the
liveness probe of client acquisition (backend.py line 362 runs before the
target-count check). -/
theorem resolve_zero_probe_counterexample :
    (search_ai_recommended_tracks envLive stPool1 ⟨some ["A - B"], none⟩ 0).1 = [] ∧
    NetEvent.probe (some ("tokA")) ∈
      (search_ai_recommended_tracks envLive stPool1 ⟨some ["A - B"], none⟩ 0).2.2 :=
  ⟨rfl, by decide⟩

/-! ## Claim C1: no duplicates, bounded length -/

theorem scanTracks_some_not_mem (env : Env) (tok : Option String) (mp : Nat)
    (uris : List String) : ∀ (ts : List Track) (u : String),
    (scanTracks env tok mp uris ts).1 = some u → ¬ u ∈ uris := by
  intro ts
  induction ts with
  | nil => intro u h; simp [scanTracks] at h
  | cons t rest ih =>
    intro u h
    simp only [scanTracks] at h
    by_cases hg : passesGates uris mp t = true
    · rw [if_pos hg] at h
      have hnm : ¬ t.uri ∈ uris := by
        have hg2 := hg
        simp only [passesGates, Bool.and_eq_true, decide_eq_true_eq] at hg2
        exact hg2.1.1
      cases ha : t.artists with
      | nil => rw [ha] at h; exact ih u h
      | cons a as2 =>
        simp only [ha] at h
        cases he : env.artist tok a.id with
        | ok info =>
          simp only [he] at h
          by_cases hge : info.getD 0 ≥ mp - 20
          · rw [if_pos hge] at h
            simp only [Option.some.injEq] at h
            subst h
            exact hnm
          · rw [if_neg hge] at h
            exact ih u h
        | error e =>
          simp only [he, Option.some.injEq] at h
          subst h
          exact hnm
    · rw [if_neg hg] at h
      exact ih u h

theorem tryQueries_some_not_mem (env : Env) (tok : Option String) (mp : Nat)
    (uris : List String) (market : String) : ∀ (qs : List String) (u : String),
    (tryQueries env tok mp uris market qs).1 = some u → ¬ u ∈ uris := by
  intro qs
  induction qs with
  | nil => intro u h; simp [tryQueries] at h
  | cons q rest ih =>
    intro u h
    simp only [tryQueries] at h
    cases hs : env.search tok q market with
    | error e => simp only [hs] at h; exact ih u h
    | ok tracks =>
      simp only [hs] at h
      cases hscan : (scanTracks env tok mp uris tracks).1 with
      | some uri =>
        simp only [hscan, Option.some.injEq] at h
        subst h
        exact scanTracks_some_not_mem env tok mp uris tracks _ hscan
      | none =>
        simp only [hscan] at h
        exact ih u h

theorem tryMarkets_some_not_mem (env : Env) (tok : Option String) (mp : Nat)
    (uris : List String) (queries : List String) : ∀ (ms : List String) (u : String),
    (tryMarkets env tok mp uris queries ms).1 = some u → ¬ u ∈ uris := by
  intro ms
  induction ms with
  | nil => intro u h; simp [tryMarkets] at h
  | cons m rest ih =>
    intro u h
    simp only [tryMarkets] at h
    cases hq : (tryQueries env tok mp uris m queries).1 with
    | some uri =>
      simp only [hq, Option.some.injEq] at h
      subst h
      exact tryQueries_some_not_mem env tok mp uris m queries _ hq
    | none =>
      simp only [hq] at h
      exact ih u h

theorem resolveCandidate_not_mem (env : Env) (tok : Option String) (mp : Nat)
    (mkts : List String) (uris : List String) (label : String) (u : String)
    (h : (resolveCandidate env tok mp mkts uris label).1 = some u) : ¬ u ∈ uris := by
  unfold resolveCandidate at h
  exact tryMarkets_some_not_mem env tok mp uris _ mkts u h

theorem resolveLoop_length (env : Env) (tok : Option String) (mp : Nat)
    (mkts : List String) (target : Nat) : ∀ (songs : List String) (uris : List String),
    uris.length ≤ target →
    (resolveLoop env tok mp mkts target songs uris).1.length ≤ target := by
  intro songs
  induction songs with
  | nil => intro uris h; simpa [resolveLoop] using h
  | cons song rest ih =>
    intro uris h
    simp only [resolveLoop]
    by_cases hlen : uris.length ≥ target
    · rw [if_pos hlen]; exact h
    · rw [if_neg hlen]
      cases hrc : (resolveCandidate env tok mp mkts uris song).1 with
      | some uri =>
        apply ih
        simp only [List.length_append, List.length_singleton]
        omega
      | none => exact ih uris h

theorem resolveLoop_nodup (env : Env) (tok : Option String) (mp : Nat)
    (mkts : List String) (target : Nat) : ∀ (songs : List String) (uris : List String),
    uris.Nodup → (resolveLoop env tok mp mkts target songs uris).1.Nodup := by
  intro songs
  induction songs with
  | nil => intro uris h; simpa [resolveLoop] using h
  | cons song rest ih =>
    intro uris h
    simp only [resolveLoop]
    by_cases hlen : uris.length ≥ target
    · rw [if_pos hlen]; exact h
    · rw [if_neg hlen]
      cases hrc : (resolveCandidate env tok mp mkts uris song).1 with
      | some uri =>
        apply ih
        refine List.nodup_append.mpr ⟨h, List.nodup_singleton _, fun a ha hb => ?_⟩
        rw [List.mem_singleton] at hb
        subst hb
        exact resolveCandidate_not_mem env tok mp mkts uris song a hrc ha
      | none => exact ih uris h

/-- C1: for every environment, state, recommendation dictionary and target
count, the URI sequence returned by `search_ai_recommended_tracks` has no
duplicate identifier and is no longer than `target_count`. -/
theorem resolve_unique_and_bounded (env : Env) (st : DJState) (sdata : SearchData)
    (target : Nat) :
    (search_ai_recommended_tracks env st sdata target).1.Nodup ∧
    (search_ai_recommended_tracks env st sdata target).1.length ≤ target := by
  unfold search_ai_recommended_tracks
  rcases hac : get_authenticated_client env st ("default") with ⟨r, st1, tr⟩
  cases r with
  | none => exact ⟨List.nodup_nil, by simp⟩
  | some c =>
    refine ⟨?_, ?_⟩
    · exact resolveLoop_nodup env c.token _ _ target _ [] List.nodup_nil
    · exact resolveLoop_length env c.token _ _ target _ [] (by simp)

/-! ## Claim C8: at most one URI per candidate, in candidate order -/

theorem resolveLoop_pairs (env : Env) (tok : Option String) (mp : Nat)
    (mkts : List String) (target : Nat) : ∀ (songs : List String) (uris : List String),
    ∃ pairs : List (String × String),
      List.Sublist (pairs.map Prod.fst) songs ∧
      (resolveLoop env tok mp mkts target songs uris).1 = uris ++ pairs.map Prod.snd ∧
      ∀ p ∈ pairs, ∃ uris2, (resolveCandidate env tok mp mkts uris2 p.1).1 = some p.2 := by
  intro songs
  induction songs with
  | nil =>
    intro uris
    exact ⟨[], by simp, by simp [resolveLoop], by simp⟩
  | cons song rest ih =>
    intro uris
    by_cases hlen : uris.length ≥ target
    · refine ⟨[], by simp, ?_, by simp⟩
      simp [resolveLoop, hlen]
    · cases hrc : (resolveCandidate env tok mp mkts uris song).1 with
      | some uri =>
        obtain ⟨pairs, hsub, heq, hres⟩ := ih (uris ++ [uri])
        refine ⟨(song, uri) :: pairs, ?_, ?_, ?_⟩
        · simp only [List.map_cons]
          exact List.Sublist.cons₂ song hsub
        · simp only [resolveLoop]
          rw [if_neg hlen, hrc]
          simp only [heq, List.map_cons]
          simp [List.append_assoc]
        · intro p hp
          rcases List.mem_cons.mp hp with rfl | hp2
          · exact ⟨uris, hrc⟩
          · exact hres p hp2
      | none =>
        obtain ⟨pairs, hsub, heq, hres⟩ := ih uris
        refine ⟨pairs, List.Sublist.cons song hsub, ?_, hres⟩
        simp only [resolveLoop]
        rw [if_neg hlen, hrc]
        exact heq

/-- C8: the returned sequence consists of one URI per resolved candidate —
there is a pairing of returned URIs with a sublist of the candidate list (in
declaration order) such that each URI is the first accepted resolution of its
candidate; hence the result is never longer than the candidate list. -/
theorem resolve_one_uri_per_candidate (env : Env) (st : DJState) (sdata : SearchData)
    (target : Nat) :
    ∃ pairs : List (String × String),
      List.Sublist (pairs.map Prod.fst) (sdata.recommendedSongs.getD []) ∧
      (search_ai_recommended_tracks env st sdata target).1 = pairs.map Prod.snd ∧
      (search_ai_recommended_tracks env st sdata target).1.length ≤
        (sdata.recommendedSongs.getD []).length ∧
      ∀ p ∈ pairs, ∃ tok mp mkts uris2,
        (resolveCandidate env tok mp mkts uris2 p.1).1 = some p.2 := by
  unfold search_ai_recommended_tracks
  rcases hac : get_authenticated_client env st ("default") with ⟨r, st1, tr⟩
  cases r with
  | none => exact ⟨[], by simp, by simp, by simp, by simp⟩
  | some c =>
    obtain ⟨pairs, hsub, heq, hres⟩ :=
      resolveLoop_pairs env c.token
        (configFor (sdata.languagePreference.getD ("English"))).2
        (configFor (sdata.languagePreference.getD ("English"))).1
        target (sdata.recommendedSongs.getD []) []
    refine ⟨pairs, hsub, ?_, ?_, ?_⟩
    · simpa using heq
    · have hlen : pairs.length ≤ (sdata.recommendedSongs.getD []).length := by
        have := hsub.length_le
        simpa using this
      simp only [heq]
      simpa using hlen
    · intro p hp
      obtain ⟨uris2, hu⟩ := hres p hp
      exact ⟨c.token, _, _, uris2, hu⟩

/-! ## Claim C5: best-effort artist-popularity check -/

/-- C5: for a search-result track that passed the dedup, popularity and
has-an-artist gates, a raised artist-profile lookup accepts the track (its
URI is returned for the candidate), while the artist-popularity threshold
`min_track_popularity - 20` is applied only when the lookup succeeds (a
successful lookup below the threshold skips the track and scanning
continues). -/
theorem artist_check_best_effort (env : Env) (tok : Option String) (mp : Nat)
    (uris : List String) (t : Track) (rest : List Track) (a : TrackArtist)
    (artistsTail : List TrackArtist)
    (hg : passesGates uris mp t = true) (ha : t.artists = a :: artistsTail) :
    scanTracks env tok mp uris (t :: rest) =
      match env.artist tok a.id with
      | .error _ => (some t.uri, [NetEvent.artistLookup a.id])
      | .ok info =>
        if info.getD 0 ≥ mp - 20 then (some t.uri, [NetEvent.artistLookup a.id])
        else
          ((scanTracks env tok mp uris rest).1,
            NetEvent.artistLookup a.id :: (scanTracks env tok mp uris rest).2) := by
  simp only [scanTracks]
  rw [if_pos hg, ha]
  dsimp only
  cases env.artist tok a.id <;> rfl

/-- C5 (witness): with an environment whose artist lookup raises, the gated
track is accepted anyway. -/
theorem artist_check_best_effort_witness :
    scanTracks envStub none 60 [] [trackGood] =
      match envStub.artist none ((⟨"ar0", "Artist Zero"⟩ : TrackArtist).id) with
      | .error _ => (some trackGood.uri, [NetEvent.artistLookup (⟨"ar0", "Artist Zero"⟩ : TrackArtist).id])
      | .ok info =>
        if info.getD 0 ≥ 60 - 20 then
          (some trackGood.uri, [NetEvent.artistLookup (⟨"ar0", "Artist Zero"⟩ : TrackArtist).id])
        else
          ((scanTracks envStub none 60 [] []).1,
            NetEvent.artistLookup (⟨"ar0", "Artist Zero"⟩ : TrackArtist).id ::
              (scanTracks envStub none 60 [] []).2) :=
  artist_check_best_effort envStub none 60 [] trackGood [] ⟨"ar0", "Artist Zero"⟩ []
    (by decide) rfl

/-! ## Claim C6: empty track list fails only after playlist creation -/

/-- C6: when a client is available, the identity call succeeds and the
playlist-creation call succeeds, calling `create_playlist` with an empty
track list returns the `NoTracksFound` error, yet the playlist-creation
network call is part of the issued trace — the named, described playlist was
already created and is not rolled back. -/
theorem empty_tracklist_after_create (env : Env) (st : DJState) (pd : PlaylistData)
    (c : SpClient) (st1 : DJState) (tr0 : List NetEvent) (ui : UserInfo) (pl : PlaylistObj)
    (hac : get_authenticated_client env st ("default") = (some c, st1, tr0))
    (hcu : env.currentUser c.token = .ok ui)
    (hcp : env.createPlaylist c.token ui.id pd.name pd.description = .ok pl) :
    create_playlist env st pd [] =
      (.errorMsg ("No tracks found matching your preferences"), st1,
        tr0 ++ [.probe c.token, .createPlaylist ui.id pd.name pd.description]) ∧
    NetEvent.createPlaylist ui.id pd.name pd.description ∈
      (create_playlist env st pd []).2.2 := by
  have h1 : create_playlist env st pd [] =
      (.errorMsg ("No tracks found matching your preferences"), st1,
        tr0 ++ [.probe c.token, .createPlaylist ui.id pd.name pd.description]) := by
    unfold create_playlist
    rw [hac]
    simp [hcu, hcp]
  refine ⟨h1, ?_⟩
  rw [h1]
  simp

/-- C6 (witness): concrete publisher environment, empty track list. -/
theorem empty_tracklist_after_create_witness :
    create_playlist envPublisher stPool1 ⟨"My List", "desc"⟩ [] =
      (.errorMsg ("No tracks found matching your preferences"), stPool1,
        [NetEvent.probe (some ("tokA"))] ++
          [NetEvent.probe (some ("tokA")),
            NetEvent.createPlaylist ("user1") ("My List") ("desc")]) ∧
    NetEvent.createPlaylist ("user1") ("My List") ("desc") ∈
      (create_playlist envPublisher stPool1 ⟨"My List", "desc"⟩ []).2.2 :=
  empty_tracklist_after_create envPublisher stPool1 ⟨"My List", "desc"⟩
    ⟨some ("tokA")⟩ stPool1 [NetEvent.probe (some ("tokA"))]
    ⟨"user1", some ("User One")⟩ ⟨"pl1", "https://open.spotify.com/playlist/pl1", "My List"⟩
    rfl rfl rfl

end ElenaDJ
